import Mathlib

/-!
Verification development for the LPR counter-surveillance pipeline.

The definitions below are a shallow embedding of the Python sources:
`improved_levenshtein.py` (text normalization, weighted edit distance,
similarity scoring, best-match search, adaptive thresholds),
`database.py` (detection recording, variant upsert, canonical rewrite,
suspicious flag, fuzzy blacklist check), `plate_processor.py`
(identity resolution, alert evaluation, suspicious-alert throttling),
`telegram_notifier.py` (message dispatch with per-plate rate limiting)
and `workers.py` (bounded intake queue).

Numeric conventions: Python floats that only ever hold small sums of
halves and integer counts are modelled as `Rat`; timestamps are `Rat`
seconds; Python `int()` truncation toward zero is `pyTrunc`.
-/

namespace LPR

/-! ### Text normalization (`improved_levenshtein.normalize_plate`) -/

/-- Characters removed by `normalize_plate` (the regex `[\s\-_.,/\\]`:
whitespace plus the listed separators). -/
def isSeparator (c : Char) : Bool :=
  c == ' ' || c == '\t' || c == '\n' || c == '\r' || c == '\x0b' || c == '\x0c' ||
  c == '-' || c == '_' || c == '.' || c == ',' || c == '/' || c == '\\'

/-- `normalize_plate`: uppercase, then drop all separators. -/
def normalize_plate (s : String) : String :=
  ⟨(s.data.map Char.toUpper).filter (fun c => !isSeparator c)⟩

/-! ### Confusable-character table (`SIMILAR_CHARS`) -/

/-- The `SIMILAR_CHARS` dictionary: value list for each key, `[]` for
characters that are not keys (notably `Q`, `D` and `7` are not keys,
and the entry for `6` lists only `G`). -/
def similarList (c : Char) : List Char :=
  if c = '0' then ['O', 'Q', 'D']
  else if c = 'O' then ['0', 'Q', 'D']
  else if c = '1' then ['I', 'L', '7']
  else if c = 'I' then ['1', 'L', '7']
  else if c = 'L' then ['1', 'I', '7']
  else if c = '5' then ['S']
  else if c = 'S' then ['5']
  else if c = '8' then ['B']
  else if c = 'B' then ['8']
  else if c = '6' then ['G']
  else if c = 'G' then ['6', 'C']
  else if c = 'C' then ['G', 'O']
  else if c = '2' then ['Z']
  else if c = 'Z' then ['2']
  else if c = 'E' then ['F']
  else if c = 'F' then ['E']
  else if c = 'P' then ['R']
  else if c = 'R' then ['P']
  else if c = 'M' then ['N']
  else if c = 'N' then ['M']
  else if c = 'U' then ['V']
  else if c = 'V' then ['U']
  else if c = 'K' then ['X']
  else if c = 'X' then ['K']
  else []

/-- `are_similar_chars`: equal characters, or either direction of the
table lookup (`char1 in SIMILAR_CHARS and char2 in SIMILAR_CHARS[char1]`
collapses to membership in `similarList char1` because non-keys map
to `[]`). -/
def are_similar_chars (c1 c2 : Char) : Bool :=
  c1 == c2 || (similarList c1).contains c2 || (similarList c2).contains c1

/-- Substitution cost used when filling the DP matrix (the code is
only ever called with `consider_similar=True`). -/
def subCost (c1 c2 : Char) : ℚ :=
  if c1 = c2 then 0
  else if are_similar_chars c1 c2 then 1/2
  else 1

/-! ### Weighted edit distance (`improved_levenshtein`) -/

/-- Row `i+1` of the DP matrix, computed from the previous row: cell 0
is the row index, and cell `j+1` is
`min(matrix[i][j+1]+1, matrix[i+1][j]+1, matrix[i][j] + cost s[i] t[j])`
(the code's deletion / insertion / substitution choices). -/
def levCell (s t : List Char) (prevRow : Nat → ℚ) (i : Nat) : Nat → ℚ
  | 0 => ((i : ℚ) + 1)
  | j+1 =>
      min (prevRow (j+1) + 1)
        (min (levCell s t prevRow i j + 1)
          (prevRow j + subCost (s.getD i ' ') (t.getD j ' ')))

/-- Cell `(i, j)` of the DP matrix, built row by row exactly as the
code fills it: row 0 is `0, 1, 2, ...` and each later row is derived
from its predecessor by `levCell`. -/
def levMatrix (s t : List Char) : Nat → Nat → ℚ
  | 0 => fun j => (j : ℚ)
  | i+1 => levCell s t (levMatrix s t i) i

/-- `improved_levenshtein`: normalize both strings, return 0 on exact
match of the normalized forms, otherwise the final DP cell. -/
def improved_levenshtein (s1 s2 : String) : ℚ :=
  if normalize_plate s1 = normalize_plate s2 then 0
  else levMatrix (normalize_plate s1).data (normalize_plate s2).data
        (normalize_plate s1).length (normalize_plate s2).length

/-- The `max_len` of `calculate_similarity_score`: the larger
normalized length. -/
def maxNormLen (s1 s2 : String) : Nat :=
  max (normalize_plate s1).length (normalize_plate s2).length

/-- `calculate_similarity_score`: `(1 - distance/max_len) * 100`
clamped to `[0, 100]`, with 100 when both normalized strings are
empty. -/
def calculate_similarity_score (s1 s2 : String) : ℚ :=
  if maxNormLen s1 s2 = 0 then 100
  else max 0 (min 100 ((1 - improved_levenshtein s1 s2 / (maxNormLen s1 s2 : ℚ)) * 100))

/-! ### Best-match search and adaptive threshold -/

/-- Loop body of `find_best_match`: a candidate replaces the running
best only when its score is at or above the threshold AND strictly
above the running best score. -/
def find_best_match_go (target : String) (threshold : ℚ) :
    List String → Option String → ℚ → Option String × ℚ
  | [], best, bestScore => (best, bestScore)
  | p :: rest, best, bestScore =>
      let score := calculate_similarity_score target p
      if threshold ≤ score ∧ bestScore < score then
        find_best_match_go target threshold rest (some p) score
      else
        find_best_match_go target threshold rest best bestScore

/-- `find_best_match`: fold over the candidate list starting from
`(None, 0)`. -/
def find_best_match (target : String) (plates : List String) (threshold : ℚ) :
    Option String × ℚ :=
  find_best_match_go target threshold plates none 0

/-- `get_adaptive_threshold`: stricter for shorter plates. -/
def get_adaptive_threshold (plate_length : Nat) : ℚ :=
  if plate_length ≤ 4 then 90
  else if plate_length ≤ 6 then 85
  else if plate_length ≤ 8 then 80
  else 75

/-- `PlateProcessor._find_or_create_canonical`, reduced to its
decision: given the detection text and the list of current canonical
texts, return the canonical the detection resolves to together with
`true` when a new identity is created (`create_canonical_plate` is
called with the detection's text).  Python's `if best_match:` treats
both `None` and the empty string as "no match". -/
def find_or_create_canonical (text : String) (canonicalPlates : List String) :
    String × Bool :=
  if canonicalPlates = [] then (text, true)
  else
    let threshold := get_adaptive_threshold (normalize_plate text).length
    match find_best_match text canonicalPlates threshold with
    | (some m, _) => if m = "" then (text, true) else (m, false)
    | (none, _) => (text, true)

/-! ### Database model (`database.py`)

Timestamps are rational seconds; `datetime` arithmetic becomes plain
subtraction.  SQL statements become list operations on the table
lists; a failed statement (caught by the surrounding `except`) leaves
the state unchanged. -/

/-- A row of `recognized_plates`. -/
structure PlateRow where
  text : String
  firstSeen : ℚ
  lastSeen : ℚ
  detCount : Nat
  country : String
  highestConf : ℚ
  suspicious : Bool
  blacklisted : Bool
  lastImage : Option String
  lastConf : ℚ
  deriving DecidableEq, Repr

/-- A row of `original_detections`. -/
structure DetRow where
  id : Nat
  ref : String
  raw : String
  ts : ℚ
  conf : ℚ
  image : Option String
  parent : Option Nat
  timeDiff : Int
  grouped : Bool
  deriving DecidableEq, Repr

/-- A row of `plate_variants`. -/
structure VarRow where
  ref : String
  text : String
  maxConf : ℚ
  count : Nat
  lastSeen : ℚ
  deriving DecidableEq, Repr

/-- The tables touched by the modelled operations (insertion order
preserved), the blacklist table as `(text, reason, danger)` triples,
and the autoincrement cursor for detection ids. -/
structure DBState where
  plates : List PlateRow
  detections : List DetRow
  variants : List VarRow
  blacklist : List (String × String × String)
  nextDetId : Nat
  deriving DecidableEq, Repr

def emptyDB : DBState := ⟨[], [], [], [], 1⟩

/-- Python `int()` conversion: truncation toward zero. -/
def pyTrunc (q : ℚ) : Int := if 0 ≤ q then q.floor else q.ceil

/-- `create_canonical_plate`: the INSERT fails on a duplicate primary
key (IntegrityError, caught and logged) and leaves the state
unchanged; otherwise the row is created, blacklist-flagged when its
text appears in `blacklist_plates`. -/
def create_canonical_plate (s : DBState) (text country : String) (conf ts : ℚ)
    (image : Option String) : DBState :=
  if s.plates.any (fun p => p.text == text) then s
  else { s with plates := s.plates ++
    [{ text := text
       firstSeen := ts
       lastSeen := ts
       detCount := 1
       country := country
       highestConf := conf
       suspicious := false
       blacklisted := s.blacklist.any (fun b => b.1 == text)
       lastImage := image
       lastConf := conf }] }

/-- The most recent ungrouped detection recorded under a canonical
text (`ORDER BY detection_ts DESC LIMIT 1` over
`is_grouped = 0`; among equal timestamps the latest-inserted row is
taken — the SQL leaves that tie unspecified). -/
def lastUngrouped (s : DBState) (c : String) : Option DetRow :=
  (s.detections.filter (fun d => d.ref == c && !d.grouped)).foldl
    (fun acc d =>
      match acc with
      | none => some d
      | some b => if b.ts ≤ d.ts then some d else some b) none

/-- Fold step scanning for the variant with the highest
`max_confidence`: a later row wins only with strictly higher
confidence. -/
def bestVarStep (acc : Option VarRow) (v : VarRow) : Option VarRow :=
  match acc with
  | none => some v
  | some b => if b.maxConf < v.maxConf then some v else some b

/-- The variant with the highest `max_confidence` under a canonical
text (`ORDER BY max_confidence DESC LIMIT 1`; among ties the
earliest-inserted row is kept). -/
def bestVariantFor (s : DBState) (c : String) : Option VarRow :=
  (s.variants.filter (fun v => v.ref == c)).foldl bestVarStep none

/-- Rewrite a canonical reference from `c` to `newText`. -/
def renameRef (c newText r : String) : String :=
  if r = c then newText else r

/-- `_check_update_canonical`: when the strongest variant's text
differs from the current canonical text, rewrite the plate row (and
its highest confidence), every detection reference and every variant
reference — all before the same commit.  When a DIFFERENT plate row
already carries the new text, the first UPDATE hits the primary-key
constraint (IntegrityError, caught and logged) and none of the
rewrites happen. -/
def check_update_canonical (s : DBState) (c : String) : DBState :=
  match bestVariantFor s c with
  | none => s
  | some v =>
    if v.text = c then s
    else if s.plates.any (fun p => p.text == c) &&
            s.plates.any (fun p => p.text == v.text) then s
    else
      { s with
        plates := s.plates.map (fun p =>
          if p.text = c then { p with text := v.text, highestConf := v.maxConf }
          else p),
        detections := s.detections.map (fun d =>
          { d with ref := renameRef c v.text d.ref }),
        variants := s.variants.map (fun w =>
          { w with ref := renameRef c v.text w.ref }) }

/-- Update the first `(ref, text)` variant row: bump `max_confidence`
to the max, the count by one, and `last_seen`. -/
def updateFirstVariant : List VarRow → String → String → ℚ → ℚ → List VarRow
  | [], _, _, _, _ => []
  | v :: rest, c, raw, conf, ts =>
    if v.ref == c && v.text == raw then
      { v with
        maxConf := max v.maxConf conf
        count := v.count + 1
        lastSeen := ts } :: rest
    else v :: updateFirstVariant rest c raw conf ts

/-- `_update_plate_variant`: upsert the `(canonical, variant)` row,
then re-derive the canonical text. -/
def update_plate_variant (s : DBState) (c raw : String) (conf ts : ℚ) : DBState :=
  let s1 :=
    if s.variants.any (fun v => v.ref == c && v.text == raw) then
      { s with variants := updateFirstVariant s.variants c raw conf ts }
    else
      { s with variants := s.variants ++ [⟨c, raw, conf, 1, ts⟩] }
  check_update_canonical s1 c

/-- `add_plate_detection`: look up the most recent ungrouped detection
of the identity; when the new detection is less than 10 seconds after
it, insert the new row grouped under it with no image, otherwise
insert a standalone row that may keep its own image.  The variant
upsert (with the canonical rewrite it may trigger) runs before the
same commit.  `newDetRow` is the row the INSERT adds. -/
def newDetRow (s : DBState) (c raw : String) (conf ts : ℚ)
    (image : Option String) : DetRow :=
  match lastUngrouped s c with
  | some last =>
    if ts - last.ts < 10 then
      { id := s.nextDetId
        ref := c
        raw := raw
        ts := ts
        conf := conf
        image := none
        parent := some last.id
        timeDiff := pyTrunc (ts - last.ts)
        grouped := true }
    else
      { id := s.nextDetId
        ref := c
        raw := raw
        ts := ts
        conf := conf
        image := image
        parent := none
        timeDiff := pyTrunc (ts - last.ts)
        grouped := false }
  | none =>
    { id := s.nextDetId
      ref := c
      raw := raw
      ts := ts
      conf := conf
      image := image
      parent := none
      timeDiff := pyTrunc 0
      grouped := false }

def add_plate_detection (s : DBState) (c raw : String) (conf ts : ℚ)
    (image : Option String) : DBState :=
  let s1 := { s with
    detections := s.detections ++ [newDetRow s c raw conf ts image]
    nextDetId := s.nextDetId + 1 }
  update_plate_variant s1 c raw conf ts

/-- `check_suspicious_presence`: set `is_suspiciously_present` only on
rows where it is still clear, and report whether any row changed
(`cursor.rowcount > 0`). -/
def check_suspicious_presence (s : DBState) (c : String) : DBState × Bool :=
  ({ s with plates := s.plates.map (fun p =>
      if p.text = c ∧ p.suspicious = false then { p with suspicious := true }
      else p) },
   s.plates.any (fun p => p.text == c && !p.suspicious))

/-- `mark_as_suspicious`: its UPDATE names a column `is_suspicious`
that does not exist in `recognized_plates` (the schema column is
`is_suspiciously_present`), so sqlite raises an OperationalError that
the function itself catches and logs — no row ever changes. -/
def mark_as_suspicious (s : DBState) (_c : String) : DBState := s

/-- One cached blacklist row: `(plate_text, reason, danger_level)`. -/
structure BlacklistEntry where
  text : String
  reason : String
  danger : String
  deriving DecidableEq, Repr

/-- Loop body of `check_blacklist_fuzzy`: an entry replaces the
running best only when its score is at or above the threshold AND
strictly above the running best score. -/
def check_blacklist_go (plate : String) (thr : ℚ) :
    List BlacklistEntry → Option (BlacklistEntry × ℚ) → ℚ →
      Option (BlacklistEntry × ℚ)
  | [], best, _ => best
  | e :: rest, best, bestScore =>
    let score := calculate_similarity_score plate e.text
    if thr ≤ score ∧ bestScore < score then
      check_blacklist_go plate thr rest (some (e, score)) score
    else
      check_blacklist_go plate thr rest best bestScore

/-- `check_blacklist_fuzzy` over the cached blacklist entries. -/
def check_blacklist_fuzzy (plate : String) (entries : List BlacklistEntry)
    (thr : ℚ) : Option (BlacklistEntry × ℚ) :=
  check_blacklist_go plate thr entries none 0

/-! ### Notifier and alert-throttle model (`telegram_notifier.py`,
`plate_processor.py`) -/

/-- `TelegramNotifier` state relevant to rate limiting. -/
structure NotifierState where
  enabled : Bool
  lastMessageTime : List (String × ℚ)
  deriving DecidableEq, Repr

/-- `TelegramNotifier.rate_limit_seconds` (2 minutes between duplicate
alerts for the same plate). -/
def rate_limit_seconds : ℚ := 120

/-- Store `(k, v)` in an association list (Python dict assignment). -/
def updateAssoc : List (String × ℚ) → String → ℚ → List (String × ℚ)
  | [], k, v => [(k, v)]
  | (k', v') :: rest, k, v =>
    if k' = k then (k, v) :: rest else (k', v') :: updateAssoc rest k v

/-- `_cleanup_old_entries`: drop rate-limit entries older than 600
seconds. -/
def cleanup_old_entries (m : List (String × ℚ)) (now : ℚ) : List (String × ℚ) :=
  m.filter (fun e => !decide (600 < now - e.2))

/-- `send_message` with the per-plate rate limiter: returns the new
state and whether a sendMessage HTTP request was actually issued
(network success is outside the model).  Python's
`if plate and priority != 'critical'` treats `None` and the empty
string as "no rate limiting"; a suppressed message does NOT update
`last_message_time`. -/
def send_message (st : NotifierState) (plate : Option String)
    (priority : String) (now : ℚ) : NotifierState × Bool :=
  if !st.enabled then (st, false)
  else
    match plate with
    | some p =>
      if p ≠ "" ∧ priority ≠ "critical" then
        match st.lastMessageTime.lookup p with
        | some last =>
          if now - last < rate_limit_seconds then (st, false)
          else
            ({ st with lastMessageTime :=
                cleanup_old_entries (updateAssoc st.lastMessageTime p now) now },
             true)
        | none =>
          ({ st with lastMessageTime :=
              cleanup_old_entries (updateAssoc st.lastMessageTime p now) now },
           true)
      else (st, true)
    | none => (st, true)

/-- `send_suspicious_alert`: a text message at priority `high` (the
photo follow-up is not modelled separately). -/
def send_suspicious_alert (st : NotifierState) (plate : String) (now : ℚ) :
    NotifierState × Bool :=
  send_message st (some plate) "high" now

/-- `send_blacklist_alert_no_limit`: posts unconditionally whenever
the notifier is enabled — it never consults or updates
`last_message_time`. -/
def send_blacklist_alert_no_limit (st : NotifierState) : NotifierState × Bool :=
  if !st.enabled then (st, false) else (st, true)

/-- `PlateProcessor.suspicious_alert_interval`: minimum seconds
between suspicious alerts for one plate. -/
def suspicious_alert_interval : ℚ := 10

/-- `_should_send_suspicious_alert`: true when the plate has no
recorded alert yet, or when at least the interval has elapsed. -/
def should_send_suspicious_alert (times : List (String × ℚ)) (plate : String)
    (now : ℚ) : Bool :=
  match times.lookup plate with
  | none => true
  | some last => decide (suspicious_alert_interval ≤ now - last)

/-- Combined processor-throttle + notifier state used by
`_check_alerts`. -/
structure AlertState where
  suspiciousAlertTimes : List (String × ℚ)
  notifier : NotifierState
  deriving DecidableEq, Repr

/-- The suspicious-dwell branch of `_check_alerts`, entered once the
dwell condition holds: consult the processor throttle; when it allows,
hand the alert to the notifier and record the new last-alert time.
Returns the new state and whether a message was actually issued. -/
def suspicious_alert_attempt (st : AlertState) (plate : String) (now : ℚ) :
    AlertState × Bool :=
  if should_send_suspicious_alert st.suspiciousAlertTimes plate now then
    ({ suspiciousAlertTimes := updateAssoc st.suspiciousAlertTimes plate now
       notifier := (send_suspicious_alert st.notifier plate now).1 },
     (send_suspicious_alert st.notifier plate now).2)
  else (st, false)

/-- Run a sequence of dwell-alert attempts for one plate; count how
many pass the processor throttle (notifier invocations) and how many
messages are actually issued. -/
def run_suspicious_attempts (st : AlertState) (plate : String) :
    List ℚ → AlertState × Nat × Nat
  | [] => (st, 0, 0)
  | t :: rest =>
    let passed := should_send_suspicious_alert st.suspiciousAlertTimes plate t
    let step := suspicious_alert_attempt st plate t
    let restRun := run_suspicious_attempts step.1 plate rest
    (restRun.1,
     (if passed then 1 else 0) + restRun.2.1,
     (if step.2 then 1 else 0) + restRun.2.2)

/-- The blacklist branch of `_check_alerts`: fuzzy-match the canonical
text against the cached blacklist; on a hit, send via
`send_blacklist_alert_no_limit` and append to the
`blacklist_detections` audit log.  Returns the state, the log and
whether the alert was issued. -/
def blacklist_alert_step (st : AlertState) (log : List (String × String × ℚ × ℚ))
    (canonical : String) (entries : List BlacklistEntry) (thr now : ℚ) :
    AlertState × List (String × String × ℚ × ℚ) × Bool :=
  match check_blacklist_fuzzy canonical entries thr with
  | some es =>
    ({ st with notifier := (send_blacklist_alert_no_limit st.notifier).1 },
     log ++ [(canonical, es.1.text, es.2, now)],
     (send_blacklist_alert_no_limit st.notifier).2)
  | none => (st, log, false)

/-! ### Bounded intake queue (`workers.py`, `config.py`) -/

/-- `QUEUE_SIZES['plate_queue']`. -/
def plate_queue_capacity : Nat := 100

/-- `add_plate_to_queue` via `put_nowait`: on a full queue the offered
(newest) item raises `Full`, which is caught — a warning is logged and
`False` is returned; the queue is unchanged and the caller never
blocks (the model is a total function). -/
def add_plate_to_queue {α : Type} (q : List α) (x : α) : List α × Bool :=
  if q.length < plate_queue_capacity then (q ++ [x], true) else (q, false)

/-! ### Spec-side comparison table for the confusable-cost claim -/

/-- Modelled from the amended claim's wording: the unordered character
pairs that the code's `SIMILAR_CHARS` table actually relates.  Compared
with the spec's classes, the pairs (Q,D) and (6,C) are absent and the
cross-class pair (C,O) is present. -/
def amendedConfusablePairs : List (Char × Char) :=
  [('0', 'O'), ('0', 'Q'), ('0', 'D'), ('O', 'Q'), ('O', 'D'),
   ('1', 'I'), ('1', 'L'), ('1', '7'), ('I', 'L'), ('I', '7'), ('L', '7'),
   ('5', 'S'), ('8', 'B'), ('6', 'G'), ('G', 'C'), ('C', 'O'), ('2', 'Z'),
   ('E', 'F'), ('P', 'R'), ('M', 'N'), ('U', 'V'), ('K', 'X')]

/-- Confusability relation as described by the amended claim: the pair
is related, in either order, by `amendedConfusablePairs`. -/
def amendedSimilar (c1 c2 : Char) : Bool :=
  amendedConfusablePairs.contains (c1, c2) ||
  amendedConfusablePairs.contains (c2, c1)

/-- Substitution cost as described by the amended claim: 0 for equal
characters, 0.5 for `amendedSimilar` pairs, 1 otherwise. -/
def amendedCost (c1 c2 : Char) : ℚ :=
  if c1 = c2 then 0
  else if amendedSimilar c1 c2 then 1/2
  else 1

/-- Characters that can appear in a normalized plate reading. -/
def plateChars : List Char := "ABCDEFGHIJKLMNOPQRSTUVWXYZ0123456789".data

/-! ### Symmetry and algebra of the scorer -/

theorem are_similar_chars_comm (a b : Char) :
    are_similar_chars a b = are_similar_chars b a := by
  simp only [are_similar_chars, Bool.or_assoc]
  have hbeq : (a == b) = (b == a) := by simp [beq_iff_eq, eq_comm]
  rw [hbeq, Bool.or_comm ((similarList a).contains b)]

theorem subCost_comm (a b : Char) : subCost a b = subCost b a := by
  unfold subCost
  by_cases h : a = b
  · subst h; rfl
  · have h' : ¬ b = a := fun hh => h hh.symm
    rw [if_neg h, if_neg h', are_similar_chars_comm]

theorem levMatrix_zero_left (s t : List Char) (j : Nat) :
    levMatrix s t 0 j = (j : ℚ) := rfl

theorem levMatrix_succ_zero (s t : List Char) (i : Nat) :
    levMatrix s t (i+1) 0 = ((i : ℚ) + 1) := rfl

theorem levMatrix_succ_succ (s t : List Char) (i j : Nat) :
    levMatrix s t (i+1) (j+1) =
      min (levMatrix s t i (j+1) + 1)
        (min (levMatrix s t (i+1) j + 1)
          (levMatrix s t i j + subCost (s.getD i ' ') (t.getD j ' '))) := rfl

theorem levMatrix_zero_right (s t : List Char) (i : Nat) :
    levMatrix s t i 0 = (i : ℚ) := by
  cases i with
  | zero => rfl
  | succ n => rw [levMatrix_succ_zero]; push_cast; ring

theorem levMatrix_symm (s t : List Char) (i j : Nat) :
    levMatrix s t i j = levMatrix t s j i := by
  have H : ∀ n i j, i + j = n → levMatrix s t i j = levMatrix t s j i := by
    intro n
    induction n using Nat.strong_induction_on with
    | _ n ih =>
      intro i j hn
      match i, j with
      | 0, j => rw [levMatrix_zero_left, levMatrix_zero_right]
      | i+1, 0 => rw [levMatrix_zero_right, levMatrix_zero_left]
      | i+1, j+1 =>
        have h1 : levMatrix s t i (j+1) = levMatrix t s (j+1) i :=
          ih (i + (j+1)) (by omega) i (j+1) rfl
        have h2 : levMatrix s t (i+1) j = levMatrix t s j (i+1) :=
          ih ((i+1) + j) (by omega) (i+1) j rfl
        have h3 : levMatrix s t i j = levMatrix t s j i :=
          ih (i + j) (by omega) i j rfl
        rw [levMatrix_succ_succ, levMatrix_succ_succ, h1, h2, h3,
          subCost_comm, min_left_comm]
  exact H (i + j) i j rfl

theorem improved_levenshtein_self (s : String) : improved_levenshtein s s = 0 := by
  simp [improved_levenshtein]

theorem improved_levenshtein_comm (a b : String) :
    improved_levenshtein a b = improved_levenshtein b a := by
  unfold improved_levenshtein
  by_cases h : normalize_plate a = normalize_plate b
  · rw [if_pos h, if_pos h.symm]
  · rw [if_neg h, if_neg (fun hh => h hh.symm), levMatrix_symm]

theorem maxNormLen_comm (a b : String) : maxNormLen a b = maxNormLen b a := by
  simp [maxNormLen, Nat.max_comm]

theorem calculate_similarity_score_self (s : String) :
    calculate_similarity_score s s = 100 := by
  simp only [calculate_similarity_score, improved_levenshtein_self]
  split_ifs <;> norm_num [min_def, max_def]

theorem calculate_similarity_score_comm (a b : String) :
    calculate_similarity_score a b = calculate_similarity_score b a := by
  simp only [calculate_similarity_score]
  rw [improved_levenshtein_comm, maxNormLen_comm]

theorem calculate_similarity_score_nonneg (a b : String) :
    0 ≤ calculate_similarity_score a b := by
  simp only [calculate_similarity_score]
  split_ifs
  · norm_num
  · exact le_max_left 0 _

theorem calculate_similarity_score_le_100 (a b : String) :
    calculate_similarity_score a b ≤ 100 := by
  simp only [calculate_similarity_score]
  split_ifs
  · norm_num
  · exact max_le (by norm_num) (min_le_left _ _)

/-- C9: the similarity score is reflexive at 100 (also when both
normalized strings are empty), symmetric, and always lies in
`[0, 100]`. -/
theorem similarity_score_algebra :
    (∀ s : String, calculate_similarity_score s s = 100) ∧
    (∀ a b : String, calculate_similarity_score a b = calculate_similarity_score b a) ∧
    (∀ a b : String,
      0 ≤ calculate_similarity_score a b ∧ calculate_similarity_score a b ≤ 100) :=
  ⟨calculate_similarity_score_self,
   calculate_similarity_score_comm,
   fun a b => ⟨calculate_similarity_score_nonneg a b,
               calculate_similarity_score_le_100 a b⟩⟩

/-- C3 counterexample: Q and D belong to the same listed confusable
class `{0,O,Q,D}`, yet neither is a key of the code's `SIMILAR_CHARS`
table, so substituting one for the other costs 1, not 0.5 — and the
full edit distance between "Q" and "D" is 1. -/
theorem confusable_cost_counterexample :
    are_similar_chars 'Q' 'D' = false ∧
    subCost 'Q' 'D' = 1 ∧ subCost 'D' 'Q' = 1 ∧
    improved_levenshtein "Q" "D" = 1 := by
  refine ⟨by decide, by norm_num +decide [subCost], by norm_num +decide [subCost], ?_⟩
  rw [improved_levenshtein,
    show normalize_plate "Q" = "Q" from rfl,
    show normalize_plate "D" = "D" from rfl,
    if_neg (by decide : ¬("Q" : String) = "D"),
    show ("Q" : String).data = ['Q'] from rfl,
    show ("D" : String).data = ['D'] from rfl,
    show ("Q" : String).length = 1 from rfl,
    show ("D" : String).length = 1 from rfl]
  norm_num +decide [levMatrix, levCell, subCost, are_similar_chars, similarList, min_def]

theorem similar_chars_eq_amended_on_plateChars :
    ∀ c1 ∈ plateChars, ∀ c2 ∈ plateChars,
      are_similar_chars c1 c2 = (c1 == c2 || amendedSimilar c1 c2) := by
  decide

/-- C3 amended: over plate characters, the substitution cost is 0 on
equal characters, 0.5 exactly on the pairs the code's table relates in
either direction — all listed class pairs except (Q,D) and (6,C), plus
the extra pair (C,O) — and 1 otherwise; and the spec's distance
inequality `editDistance("00AB","OOAB") < editDistance("00AB","XXAB")`
holds. -/
theorem confusable_cost_amended :
    (∀ c1 ∈ plateChars, ∀ c2 ∈ plateChars, subCost c1 c2 = amendedCost c1 c2) ∧
    improved_levenshtein "00AB" "OOAB" < improved_levenshtein "00AB" "XXAB" := by
  constructor
  · intro c1 h1 c2 h2
    unfold subCost amendedCost
    by_cases h : c1 = c2
    · rw [if_pos h, if_pos h]
    · rw [if_neg h, if_neg h, similar_chars_eq_amended_on_plateChars c1 h1 c2 h2]
      have hbeq : (c1 == c2) = false := by simp [h]
      rw [hbeq, Bool.false_or]
  · have h1 : improved_levenshtein "00AB" "OOAB" = 1 := by
      rw [improved_levenshtein,
        show normalize_plate "00AB" = "00AB" from rfl,
        show normalize_plate "OOAB" = "OOAB" from rfl,
        if_neg (by decide : ¬("00AB" : String) = "OOAB"),
        show ("00AB" : String).data = ['0','0','A','B'] from rfl,
        show ("OOAB" : String).data = ['O','O','A','B'] from rfl,
        show ("00AB" : String).length = 4 from rfl,
        show ("OOAB" : String).length = 4 from rfl]
      norm_num +decide [levMatrix, levCell, subCost, are_similar_chars, similarList, min_def]
    have h2 : improved_levenshtein "00AB" "XXAB" = 2 := by
      rw [improved_levenshtein,
        show normalize_plate "00AB" = "00AB" from rfl,
        show normalize_plate "XXAB" = "XXAB" from rfl,
        if_neg (by decide : ¬("00AB" : String) = "XXAB"),
        show ("00AB" : String).data = ['0','0','A','B'] from rfl,
        show ("XXAB" : String).data = ['X','X','A','B'] from rfl,
        show ("00AB" : String).length = 4 from rfl,
        show ("XXAB" : String).length = 4 from rfl]
      norm_num +decide [levMatrix, levCell, subCost, are_similar_chars, similarList, min_def]
    rw [h1, h2]; norm_num

/-- C3 amended claim witness: evaluated at the confusable pair (0, O)
and the unrelated pair (0, X). -/
theorem confusable_cost_amended_witness :
    subCost '0' 'O' = amendedCost '0' 'O' ∧ subCost '0' 'X' = amendedCost '0' 'X' :=
  ⟨confusable_cost_amended.1 '0' (by decide) 'O' (by decide),
   confusable_cost_amended.1 '0' (by decide) 'X' (by decide)⟩

/-! ### Characterization of the best-match fold -/

theorem find_best_match_go_below (target : String) (thr : ℚ) :
    ∀ (l : List String) (b : Option String) (bs : ℚ),
      (∀ p ∈ l, calculate_similarity_score target p < thr) →
      find_best_match_go target thr l b bs = (b, bs) := by
  intro l
  induction l with
  | nil => intro b bs _; rfl
  | cons p rest ih =>
    intro b bs h
    have hp := h p (List.mem_cons_self p rest)
    simp only [find_best_match_go]
    rw [if_neg (fun hc => absurd hc.1 (not_le.mpr hp))]
    exact ih b bs (fun q hq => h q (List.mem_cons_of_mem p hq))

theorem find_best_match_go_some (target : String) (thr : ℚ) :
    ∀ (l : List String) (b : Option String) (bs : ℚ) (m : String) (s : ℚ),
      find_best_match_go target thr l b bs = (some m, s) →
      (b = some m ∧ s = bs ∧
        (∀ p ∈ l, calculate_similarity_score target p < thr ∨
          calculate_similarity_score target p ≤ bs)) ∨
      (thr ≤ s ∧ bs < s ∧ calculate_similarity_score target m = s ∧
        ∃ l1 l2, l = l1 ++ m :: l2 ∧
          (∀ q ∈ l1, calculate_similarity_score target q < s) ∧
          (∀ q ∈ l2, calculate_similarity_score target q ≤ s)) := by
  intro l
  induction l with
  | nil =>
    intro b bs m s h
    simp only [find_best_match_go, Prod.mk.injEq] at h
    exact Or.inl ⟨h.1, h.2.symm, by simp⟩
  | cons p rest ih =>
    intro b bs m s h
    simp only [find_best_match_go] at h
    by_cases hc : thr ≤ calculate_similarity_score target p ∧
        bs < calculate_similarity_score target p
    · rw [if_pos hc] at h
      rcases ih (some p) (calculate_similarity_score target p) m s h with
        ⟨hbm, hs, hall⟩ | ⟨h1, h2, h3, l1, l2, hl, hl1, hl2⟩
      · injection hbm with hbm'
        subst hbm'
        right
        refine ⟨hs ▸ hc.1, hs ▸ hc.2, hs.symm, [], rest, rfl, by simp, ?_⟩
        intro q hq
        rcases hall q hq with h' | h'
        · exact le_trans (le_of_lt h') (hs ▸ hc.1)
        · exact hs ▸ h'
      · right
        refine ⟨h1, lt_trans hc.2 h2, h3, p :: l1, l2, by rw [hl]; rfl, ?_, hl2⟩
        intro q hq
        rcases List.mem_cons.mp hq with rfl | hq'
        · exact h2
        · exact hl1 q hq'
    · rw [if_neg hc] at h
      rcases ih b bs m s h with
        ⟨hbm, hs, hall⟩ | ⟨h1, h2, h3, l1, l2, hl, hl1, hl2⟩
      · left
        refine ⟨hbm, hs, ?_⟩
        intro q hq
        rcases List.mem_cons.mp hq with rfl | hq'
        · rcases not_and_or.mp hc with h' | h'
          · exact Or.inl (not_le.mp h')
          · exact Or.inr (not_lt.mp h')
        · exact hall q hq'
      · right
        refine ⟨h1, h2, h3, p :: l1, l2, by rw [hl]; rfl, ?_, hl2⟩
        intro q hq
        rcases List.mem_cons.mp hq with rfl | hq'
        · rcases not_and_or.mp hc with h' | h'
          · exact lt_of_lt_of_le (not_le.mp h') h1
          · exact lt_of_le_of_lt (not_lt.mp h') h2
        · exact hl1 q hq'

/-- C10: when `find_best_match` returns a match, the returned score is
at or above the threshold and is the maximum score over the whole
list, and the returned plate is the EARLIEST list element attaining
that maximum — every candidate before it scores strictly lower, so
ties are resolved in list order. -/
theorem find_best_match_tiebreak (target : String) (plates : List String)
    (thr : ℚ) (m : String) (s : ℚ)
    (h : find_best_match target plates thr = (some m, s)) :
    thr ≤ s ∧ calculate_similarity_score target m = s ∧
    ∃ l1 l2, plates = l1 ++ m :: l2 ∧
      (∀ q ∈ l1, calculate_similarity_score target q < s) ∧
      (∀ q ∈ plates, calculate_similarity_score target q ≤ s) := by
  rcases find_best_match_go_some target thr plates none 0 m s h with
    ⟨hbm, _, _⟩ | ⟨h1, _, h3, l1, l2, hl, hl1, hl2⟩
  · exact absurd hbm (by simp)
  · refine ⟨h1, h3, l1, l2, hl, hl1, ?_⟩
    intro q hq
    rw [hl] at hq
    rcases List.mem_append.mp hq with hq1 | hq2
    · exact le_of_lt (hl1 q hq1)
    · rcases List.mem_cons.mp hq2 with rfl | hq3
      · exact le_of_eq h3
      · exact hl2 q hq3

/-- C10 witness: "AO" and "AQ" both score 75 against "A0"; the earlier
candidate "AO" is returned. -/
theorem find_best_match_tiebreak_witness :
    70 ≤ (75 : ℚ) ∧ calculate_similarity_score "A0" "AO" = 75 ∧
    ∃ l1 l2, (["AO", "AQ"] : List String) = l1 ++ "AO" :: l2 ∧
      (∀ q ∈ l1, calculate_similarity_score "A0" q < 75) ∧
      (∀ q ∈ (["AO", "AQ"] : List String), calculate_similarity_score "A0" q ≤ 75) := by
  have hlev1 : improved_levenshtein "A0" "AO" = 1/2 := by
    rw [improved_levenshtein,
      show normalize_plate "A0" = "A0" from rfl,
      show normalize_plate "AO" = "AO" from rfl,
      if_neg (by decide : ¬("A0" : String) = "AO"),
      show ("A0" : String).data = ['A', '0'] from rfl,
      show ("AO" : String).data = ['A', 'O'] from rfl,
      show ("A0" : String).length = 2 from rfl,
      show ("AO" : String).length = 2 from rfl]
    norm_num +decide [levMatrix, levCell, subCost, are_similar_chars, similarList, min_def]
  have hlev2 : improved_levenshtein "A0" "AQ" = 1/2 := by
    rw [improved_levenshtein,
      show normalize_plate "A0" = "A0" from rfl,
      show normalize_plate "AQ" = "AQ" from rfl,
      if_neg (by decide : ¬("A0" : String) = "AQ"),
      show ("A0" : String).data = ['A', '0'] from rfl,
      show ("AQ" : String).data = ['A', 'Q'] from rfl,
      show ("A0" : String).length = 2 from rfl,
      show ("AQ" : String).length = 2 from rfl]
    norm_num +decide [levMatrix, levCell, subCost, are_similar_chars, similarList, min_def]
  have hs1 : calculate_similarity_score "A0" "AO" = 75 := by
    rw [calculate_similarity_score, show maxNormLen "A0" "AO" = 2 from rfl,
      if_neg (by norm_num), hlev1]
    norm_num [min_def, max_def]
  have hs2 : calculate_similarity_score "A0" "AQ" = 75 := by
    rw [calculate_similarity_score, show maxNormLen "A0" "AQ" = 2 from rfl,
      if_neg (by norm_num), hlev2]
    norm_num [min_def, max_def]
  refine find_best_match_tiebreak "A0" ["AO", "AQ"] 70 "AO" 75 ?_
  simp only [find_best_match, find_best_match_go, hs1, hs2]
  rw [if_pos (by norm_num : (70:ℚ) ≤ 75 ∧ (0:ℚ) < 75),
    if_neg (by norm_num : ¬((70:ℚ) ≤ 75 ∧ (75:ℚ) < 75))]

/-- C5: the adaptive threshold table is exactly 90 / 85 / 80 / 75 at
normalized lengths ≤4 / ≤6 / ≤8 / otherwise; when the best-match
search yields a (non-empty) candidate the resolution returns it
without creating anything, and when no candidate scores at or above
the threshold the resolution always returns the detection's own text
with a fresh identity (never an error — the function is total). -/
theorem identity_resolution :
    (∀ n : Nat, get_adaptive_threshold n =
      if n ≤ 4 then 90 else if n ≤ 6 then 85 else if n ≤ 8 then 80 else 75) ∧
    (∀ (text : String) (plates : List String) (m : String) (s : ℚ),
      find_best_match text plates
        (get_adaptive_threshold (normalize_plate text).length) = (some m, s) →
      ¬ m = "" → find_or_create_canonical text plates = (m, false)) ∧
    (∀ (text : String) (plates : List String),
      (∀ p ∈ plates, calculate_similarity_score text p <
        get_adaptive_threshold (normalize_plate text).length) →
      find_or_create_canonical text plates = (text, true)) := by
  refine ⟨fun n => rfl, ?_, ?_⟩
  · intro text plates m s h hm
    by_cases hp : plates = []
    · subst hp
      exact absurd h (by simp [find_best_match, find_best_match_go])
    · rw [find_or_create_canonical, if_neg hp]
      show (match find_best_match text plates
            (get_adaptive_threshold (normalize_plate text).length) with
        | (some m, _) => if m = "" then (text, true) else (m, false)
        | (none, _) => (text, true)) = (m, false)
      rw [h]
      exact if_neg hm
  · intro text plates h
    by_cases hp : plates = []
    · subst hp
      rw [find_or_create_canonical, if_pos rfl]
    · rw [find_or_create_canonical, if_neg hp]
      show (match find_best_match text plates
            (get_adaptive_threshold (normalize_plate text).length) with
        | (some m, _) => if m = "" then (text, true) else (m, false)
        | (none, _) => (text, true)) = (text, true)
      have hb : find_best_match text plates
          (get_adaptive_threshold (normalize_plate text).length) = (none, 0) :=
        find_best_match_go_below text _ plates none 0 h
      rw [hb]

/-! ### Backpressure of the intake queue -/

/-- C7: enqueuing into the intake queue never blocks (the model is a
total function); on a full queue the newly offered item is dropped —
the queue comes back unchanged and the operation reports failure — and
starting at or below capacity the queue never exceeds capacity.  A
successful enqueue appends the item. -/
theorem queue_backpressure :
    (∀ (q : List Nat) (x : Nat), plate_queue_capacity ≤ q.length →
      add_plate_to_queue q x = (q, false)) ∧
    (∀ (q : List Nat) (x : Nat), q.length ≤ plate_queue_capacity →
      (add_plate_to_queue q x).1.length ≤ plate_queue_capacity) ∧
    (∀ (q : List Nat) (x : Nat), (add_plate_to_queue q x).2 = true →
      (add_plate_to_queue q x).1 = q ++ [x]) := by
  refine ⟨?_, ?_, ?_⟩
  · intro q x h
    rw [add_plate_to_queue, if_neg (by omega)]
  · intro q x h
    rw [add_plate_to_queue]
    split_ifs with hlt
    · simp only [List.length_append, List.length_singleton]
      omega
    · exact h
  · intro q x h
    rw [add_plate_to_queue] at h ⊢
    split_ifs at h ⊢
    rfl

/-- C7 witness: a queue already at capacity rejects the offered item
and stays as it was. -/
theorem queue_backpressure_witness :
    add_plate_to_queue (List.replicate plate_queue_capacity 0) 7 =
      (List.replicate plate_queue_capacity 0, false) :=
  queue_backpressure.1 (List.replicate plate_queue_capacity 0) 7 (by simp)

/-! ### Suspicious-dwell throttling -/

theorem lookup_updateAssoc (m : List (String × ℚ)) (k : String) (v : ℚ) :
    (updateAssoc m k v).lookup k = some v := by
  induction m with
  | nil => simp [updateAssoc, List.lookup]
  | cons e rest ih =>
    rcases e with ⟨k', v'⟩
    simp only [updateAssoc]
    by_cases h : k' = k
    · rw [if_pos h]
      simp [List.lookup]
    · rw [if_neg h]
      have hbeq : (k == k') = false :=
        beq_eq_false_iff_ne.mpr (fun hh => h hh.symm)
      simp [List.lookup, hbeq, ih]

/-- C2 counterexample: with the dwell condition already satisfied,
three alert attempts at 0s, 1s and 12s pass the 10-second dwell
throttle twice, but only ONE message is actually issued: the notifier
itself rate-limits non-critical per-plate messages to one per 120
seconds, and suspicious alerts are sent at priority `high`.  The claim
predicts two delivered alerts; the code delivers one. -/
theorem suspicious_throttle_counterexample :
    (run_suspicious_attempts ⟨[], ⟨true, []⟩⟩ "AB123" [0, 1, 12]).2 = (2, 1) := by
  norm_num +decide [run_suspicious_attempts, suspicious_alert_attempt,
    should_send_suspicious_alert, send_suspicious_alert, send_message,
    updateAssoc, cleanup_old_entries, rate_limit_seconds,
    suspicious_alert_interval, List.lookup]

/-- C2 amended: an attempt within the 10-second cooldown after the
last recorded suspicious alert is suppressed with no state change; an
attempt at or after the cooldown passes the dwell throttle — the
processor's per-plate last-alert time is updated to `now` and the
alert is handed to the notifier — but actual delivery is decided by
the notifier's own 120-second per-plate rate limit (suspicious alerts
carry priority `high`, not `critical`).  In the spec's 0s / 1s / 12s
sequence exactly two attempts reach the notifier and exactly one
message is issued. -/
theorem suspicious_throttle_amended :
    (∀ (st : AlertState) (plate : String) (now last : ℚ),
      st.suspiciousAlertTimes.lookup plate = some last →
      now - last < suspicious_alert_interval →
      suspicious_alert_attempt st plate now = (st, false)) ∧
    (∀ (st : AlertState) (plate : String) (now last : ℚ),
      st.suspiciousAlertTimes.lookup plate = some last →
      suspicious_alert_interval ≤ now - last →
      (suspicious_alert_attempt st plate now).1.suspiciousAlertTimes.lookup plate
          = some now ∧
      (suspicious_alert_attempt st plate now).2 =
        (send_message st.notifier (some plate) "high" now).2) ∧
    (run_suspicious_attempts ⟨[], ⟨true, []⟩⟩ "AB123" [0, 1, 12]).2 = (2, 1) := by
  refine ⟨?_, ?_, ?_⟩
  · intro st plate now last hl hlt
    have hss : should_send_suspicious_alert st.suspiciousAlertTimes plate now
        = false := by
      rw [should_send_suspicious_alert, hl]
      simp [not_le.mpr hlt]
    rw [suspicious_alert_attempt, hss]
    rfl
  · intro st plate now last hl hge
    have hss : should_send_suspicious_alert st.suspiciousAlertTimes plate now
        = true := by
      rw [should_send_suspicious_alert, hl]
      simp [hge]
    rw [suspicious_alert_attempt, hss]
    exact ⟨lookup_updateAssoc st.suspiciousAlertTimes plate now, rfl⟩
  · norm_num +decide [run_suspicious_attempts, suspicious_alert_attempt,
      should_send_suspicious_alert, send_suspicious_alert, send_message,
      updateAssoc, cleanup_old_entries, rate_limit_seconds,
      suspicious_alert_interval, List.lookup]

/-- C2 amended claim witness: a second attempt 1 second after a
recorded alert is suppressed; an attempt 12 seconds after it passes
the dwell throttle and records the new time. -/
theorem suspicious_throttle_amended_witness :
    suspicious_alert_attempt ⟨[("P", 0)], ⟨true, []⟩⟩ "P" 1 =
      (⟨[("P", 0)], ⟨true, []⟩⟩, false) ∧
    (suspicious_alert_attempt ⟨[("P", 0)], ⟨true, []⟩⟩ "P" 12
        ).1.suspiciousAlertTimes.lookup "P" = some 12 :=
  ⟨suspicious_throttle_amended.1 ⟨[("P", 0)], ⟨true, []⟩⟩ "P" 1 0 rfl
     (by norm_num [suspicious_alert_interval]),
   (suspicious_throttle_amended.2.1 ⟨[("P", 0)], ⟨true, []⟩⟩ "P" 12 0 rfl
     (by norm_num [suspicious_alert_interval])).1⟩

/-- C5 witness: "ZZ" scores 0 against "AB" (below the length-2
threshold of 90), so a fresh identity is created from "AB". -/
theorem identity_resolution_witness :
    find_or_create_canonical "AB" ["ZZ"] = ("AB", true) := by
  refine identity_resolution.2.2 "AB" ["ZZ"] ?_
  intro p hp
  have hp' : p = "ZZ" := by simpa using hp
  subst hp'
  have hlev : improved_levenshtein "AB" "ZZ" = 2 := by
    rw [improved_levenshtein,
      show normalize_plate "AB" = "AB" from rfl,
      show normalize_plate "ZZ" = "ZZ" from rfl,
      if_neg (by decide : ¬("AB" : String) = "ZZ"),
      show ("AB" : String).data = ['A', 'B'] from rfl,
      show ("ZZ" : String).data = ['Z', 'Z'] from rfl,
      show ("AB" : String).length = 2 from rfl,
      show ("ZZ" : String).length = 2 from rfl]
    norm_num +decide [levMatrix, levCell, subCost, are_similar_chars, similarList, min_def]
  have hs : calculate_similarity_score "AB" "ZZ" = 0 := by
    rw [calculate_similarity_score, show maxNormLen "AB" "ZZ" = 2 from rfl,
      if_neg (by norm_num), hlev]
    norm_num [min_def, max_def]
  rw [hs, show get_adaptive_threshold (normalize_plate "AB").length = 90 from rfl]
  norm_num

/-! ### Unthrottled blacklist alerts -/

theorem check_blacklist_go_below (plate : String) (thr : ℚ) :
    ∀ (l : List BlacklistEntry) (b : Option (BlacklistEntry × ℚ)) (bs : ℚ),
      (∀ e ∈ l, calculate_similarity_score plate e.text < thr) →
      check_blacklist_go plate thr l b bs = b := by
  intro l
  induction l with
  | nil => intro b bs _; rfl
  | cons e rest ih =>
    intro b bs h
    have he := h e (List.mem_cons_self e rest)
    simp only [check_blacklist_go]
    rw [if_neg (fun hc => absurd hc.1 (not_le.mpr he))]
    exact ih b bs (fun q hq => h q (List.mem_cons_of_mem e hq))

theorem check_blacklist_go_some (plate : String) (thr : ℚ) :
    ∀ (l : List BlacklistEntry) (b : Option (BlacklistEntry × ℚ)) (bs : ℚ)
      (e : BlacklistEntry) (s : ℚ),
      check_blacklist_go plate thr l b bs = some (e, s) →
      (b = some (e, s) ∧
        (∀ q ∈ l, calculate_similarity_score plate q.text < thr ∨
          calculate_similarity_score plate q.text ≤ bs)) ∨
      (e ∈ l ∧ s = calculate_similarity_score plate e.text ∧ thr ≤ s ∧ bs < s ∧
        (∀ q ∈ l, calculate_similarity_score plate q.text ≤ s ∨
          calculate_similarity_score plate q.text < thr)) := by
  intro l
  induction l with
  | nil =>
    intro b bs e s h
    exact Or.inl ⟨h, by simp⟩
  | cons p rest ih =>
    intro b bs e s h
    simp only [check_blacklist_go] at h
    by_cases hc : thr ≤ calculate_similarity_score plate p.text ∧
        bs < calculate_similarity_score plate p.text
    · rw [if_pos hc] at h
      rcases ih (some (p, calculate_similarity_score plate p.text))
          (calculate_similarity_score plate p.text) e s h with
        ⟨hbm, hall⟩ | ⟨hmem, hs, h1, h2, hall⟩
      · have hpe : p = e ∧ calculate_similarity_score plate p.text = s := by
          simpa [Prod.ext_iff] using hbm
        obtain ⟨rfl, hse⟩ := hpe
        right
        refine ⟨List.mem_cons_self p rest, hse.symm, hse ▸ hc.1, hse ▸ hc.2, ?_⟩
        intro q hq
        rcases List.mem_cons.mp hq with rfl | hq'
        · exact Or.inl (le_of_eq hse)
        · rcases hall q hq' with h' | h'
          · exact Or.inr h'
          · exact Or.inl (le_trans h' (le_of_eq hse))
      · right
        refine ⟨List.mem_cons_of_mem p hmem, hs, h1, lt_trans hc.2 h2, ?_⟩
        intro q hq
        rcases List.mem_cons.mp hq with rfl | hq'
        · exact Or.inl (le_of_lt h2)
        · exact hall q hq'
    · rw [if_neg hc] at h
      rcases ih b bs e s h with ⟨hbm, hall⟩ | ⟨hmem, hs, h1, h2, hall⟩
      · left
        refine ⟨hbm, ?_⟩
        intro q hq
        rcases List.mem_cons.mp hq with rfl | hq'
        · rcases not_and_or.mp hc with h' | h'
          · exact Or.inl (not_le.mp h')
          · exact Or.inr (not_lt.mp h')
        · exact hall q hq'
      · right
        refine ⟨List.mem_cons_of_mem p hmem, hs, h1, h2, ?_⟩
        intro q hq
        rcases List.mem_cons.mp hq with rfl | hq'
        · rcases not_and_or.mp hc with h' | h'
          · exact Or.inr (not_le.mp h')
          · exact Or.inl (le_trans (not_lt.mp h') (le_of_lt h2))
        · exact hall q hq'

theorem send_blacklist_alert_no_limit_eq (st : NotifierState) :
    send_blacklist_alert_no_limit st = (st, st.enabled) := by
  obtain ⟨en, lmt⟩ := st
  cases en with
  | false => rfl
  | true => rfl

theorem blacklist_step_hit (st : AlertState)
    (log : List (String × String × ℚ × ℚ)) (canonical : String)
    (entries : List BlacklistEntry) (thr now : ℚ) (e : BlacklistEntry) (s : ℚ)
    (hen : st.notifier.enabled = true)
    (h : check_blacklist_fuzzy canonical entries thr = some (e, s)) :
    blacklist_alert_step st log canonical entries thr now =
      (st, log ++ [(canonical, e.text, s, now)], true) := by
  rw [blacklist_alert_step]
  rw [h]
  rw [send_blacklist_alert_no_limit_eq, hen]

/-- C4: the fuzzy blacklist check returns an entry whose similarity
score is at or above the threshold and maximal over all cached
entries, and when every entry scores below the threshold it returns
nothing (so only a qualifying best entry triggers); a hit is appended
to the audit log and sent at once through the no-limit path, which
neither consults nor updates any rate-limit or dwell-throttle state —
hence two qualifying matches at ANY two times, and from ANY throttle
state, are both delivered. -/
theorem blacklist_alert_unthrottled :
    (∀ (plate : String) (entries : List BlacklistEntry) (thr : ℚ)
      (e : BlacklistEntry) (s : ℚ),
      check_blacklist_fuzzy plate entries thr = some (e, s) →
      e ∈ entries ∧ thr ≤ s ∧ s = calculate_similarity_score plate e.text ∧
      ∀ q ∈ entries, calculate_similarity_score plate q.text ≤ s) ∧
    (∀ (plate : String) (entries : List BlacklistEntry) (thr : ℚ),
      (∀ e ∈ entries, calculate_similarity_score plate e.text < thr) →
      check_blacklist_fuzzy plate entries thr = none) ∧
    (∀ (st : AlertState) (log : List (String × String × ℚ × ℚ))
      (canonical : String) (entries : List BlacklistEntry) (thr now : ℚ)
      (e : BlacklistEntry) (s : ℚ),
      st.notifier.enabled = true →
      check_blacklist_fuzzy canonical entries thr = some (e, s) →
      blacklist_alert_step st log canonical entries thr now =
        (st, log ++ [(canonical, e.text, s, now)], true)) ∧
    (∀ (st : AlertState) (log : List (String × String × ℚ × ℚ))
      (canonical : String) (entries : List BlacklistEntry) (thr t1 t2 : ℚ)
      (e : BlacklistEntry) (s : ℚ),
      st.notifier.enabled = true →
      check_blacklist_fuzzy canonical entries thr = some (e, s) →
      (blacklist_alert_step st log canonical entries thr t1).2.2 = true ∧
      (blacklist_alert_step
        (blacklist_alert_step st log canonical entries thr t1).1
        (blacklist_alert_step st log canonical entries thr t1).2.1
        canonical entries thr t2).2.2 = true) := by
  refine ⟨?_, ?_, ?_, ?_⟩
  · intro plate entries thr e s h
    rcases check_blacklist_go_some plate thr entries none 0 e s h with
      ⟨hbm, _⟩ | ⟨hmem, hs, h1, _, hall⟩
    · exact absurd hbm (by simp)
    · refine ⟨hmem, h1, hs, ?_⟩
      intro q hq
      rcases hall q hq with h' | h'
      · exact h'
      · exact le_of_lt (lt_of_lt_of_le h' h1)
  · intro plate entries thr h
    exact check_blacklist_go_below plate thr entries none 0 h
  · intro st log canonical entries thr now e s hen h
    exact blacklist_step_hit st log canonical entries thr now e s hen h
  · intro st log canonical entries thr t1 t2 e s hen h
    have h1 := blacklist_step_hit st log canonical entries thr t1 e s hen h
    constructor
    · rw [h1]
    · rw [h1]
      have h2 := blacklist_step_hit st (log ++ [(canonical, e.text, s, t1)])
        canonical entries thr t2 e s hen h
      rw [h2]

/-- C4 witness: a blacklist entry matching the canonical text exactly
(similarity 100 ≥ 80) fires even though the notifier's per-plate
rate-limit map and the dwell-throttle map both carry a fresh entry for
the very same plate. -/
theorem blacklist_alert_unthrottled_witness :
    blacklist_alert_step ⟨[("AB", 0)], ⟨true, [("AB", 0)]⟩⟩ [] "AB"
        [⟨"AB", "stolen", "HIGH"⟩] 80 5 =
      (⟨[("AB", 0)], ⟨true, [("AB", 0)]⟩⟩, [("AB", "AB", 100, 5)], true) :=
  blacklist_alert_unthrottled.2.2.1 ⟨[("AB", 0)], ⟨true, [("AB", 0)]⟩⟩ [] "AB"
    [⟨"AB", "stolen", "HIGH"⟩] 80 5 ⟨"AB", "stolen", "HIGH"⟩ 100 rfl
    (by
      simp only [check_blacklist_fuzzy, check_blacklist_go,
        calculate_similarity_score_self]
      rw [if_pos (by norm_num : (80:ℚ) ≤ 100 ∧ (0:ℚ) < 100)])

/-! ### Detection grouping -/

theorem detrow_eta (d : DetRow) : { d with ref := d.ref } = d := rfl

theorem check_update_canonical_detections (s : DBState) (c : String) :
    ∃ g : String → String,
      (check_update_canonical s c).detections =
        s.detections.map (fun d => { d with ref := g d.ref }) := by
  cases hb : bestVariantFor s c with
  | none =>
    refine ⟨id, ?_⟩
    simp [check_update_canonical, hb, detrow_eta]
  | some v =>
    by_cases h1 : v.text = c
    · refine ⟨id, ?_⟩
      simp [check_update_canonical, hb, h1, detrow_eta]
    · by_cases h2 : (s.plates.any (fun p => p.text == c) &&
          s.plates.any (fun p => p.text == v.text)) = true
      · refine ⟨id, ?_⟩
        simp [check_update_canonical, hb, h1, h2, detrow_eta]
      · refine ⟨renameRef c v.text, ?_⟩
        simp [check_update_canonical, hb, h1, h2]

theorem update_plate_variant_detections (s : DBState) (c raw : String)
    (conf ts : ℚ) :
    ∃ g : String → String,
      (update_plate_variant s c raw conf ts).detections =
        s.detections.map (fun d => { d with ref := g d.ref }) := by
  obtain ⟨g, hg⟩ := check_update_canonical_detections
    (if (s.variants.any (fun v => v.ref == c && v.text == raw)) = true then
      { s with variants := updateFirstVariant s.variants c raw conf ts }
     else { s with variants := s.variants ++ [(⟨c, raw, conf, 1, ts⟩ : VarRow)] }) c
  refine ⟨g, ?_⟩
  show (check_update_canonical
    (if (s.variants.any (fun v => v.ref == c && v.text == raw)) = true then
      { s with variants := updateFirstVariant s.variants c raw conf ts }
     else { s with variants := s.variants ++ [(⟨c, raw, conf, 1, ts⟩ : VarRow)] }) c
    ).detections = s.detections.map (fun d => { d with ref := g d.ref })
  rw [hg]
  have hdet :
      (if (s.variants.any (fun v => v.ref == c && v.text == raw)) = true then
        { s with variants := updateFirstVariant s.variants c raw conf ts }
       else { s with variants := s.variants ++ [(⟨c, raw, conf, 1, ts⟩ : VarRow)] }
      ).detections = s.detections := by
    split_ifs <;> rfl
  rw [hdet]

theorem add_plate_detection_detections (s : DBState) (c raw : String)
    (conf ts : ℚ) (img : Option String) :
    ∃ g : String → String,
      (add_plate_detection s c raw conf ts img).detections =
        (s.detections ++ [newDetRow s c raw conf ts img]).map
          (fun d => { d with ref := g d.ref }) := by
  obtain ⟨g, hg⟩ := update_plate_variant_detections
    { s with
      detections := s.detections ++ [newDetRow s c raw conf ts img]
      nextDetId := s.nextDetId + 1 } c raw conf ts
  exact ⟨g, hg⟩

theorem add_plate_detection_inserted (s : DBState) (c raw : String)
    (conf ts : ℚ) (img : Option String) :
    ∃ d ∈ (add_plate_detection s c raw conf ts img).detections,
      d.id = (newDetRow s c raw conf ts img).id ∧
      d.grouped = (newDetRow s c raw conf ts img).grouped ∧
      d.parent = (newDetRow s c raw conf ts img).parent ∧
      d.image = (newDetRow s c raw conf ts img).image := by
  obtain ⟨g, hg⟩ := add_plate_detection_detections s c raw conf ts img
  refine ⟨{ newDetRow s c raw conf ts img with
      ref := g (newDetRow s c raw conf ts img).ref }, ?_, rfl, rfl, rfl, rfl⟩
  rw [hg]
  exact List.mem_map_of_mem _
    (List.mem_append_right _ (List.mem_singleton.mpr rfl))

theorem newDetRow_within_window (s : DBState) (c raw : String) (conf ts : ℚ)
    (img : Option String) (last : DetRow)
    (hlast : lastUngrouped s c = some last) (hlt : ts - last.ts < 10) :
    newDetRow s c raw conf ts img =
      { id := s.nextDetId
        ref := c
        raw := raw
        ts := ts
        conf := conf
        image := none
        parent := some last.id
        timeDiff := pyTrunc (ts - last.ts)
        grouped := true } := by
  simp only [newDetRow, hlast]
  rw [if_pos hlt]

theorem newDetRow_outside_window (s : DBState) (c raw : String) (conf ts : ℚ)
    (img : Option String) (last : DetRow)
    (hlast : lastUngrouped s c = some last) (hge : ¬ ts - last.ts < 10) :
    newDetRow s c raw conf ts img =
      { id := s.nextDetId
        ref := c
        raw := raw
        ts := ts
        conf := conf
        image := img
        parent := none
        timeDiff := pyTrunc (ts - last.ts)
        grouped := false } := by
  simp only [newDetRow, hlast]
  rw [if_neg hge]

theorem newDetRow_no_previous (s : DBState) (c raw : String) (conf ts : ℚ)
    (img : Option String) (hlast : lastUngrouped s c = none) :
    newDetRow s c raw conf ts img =
      { id := s.nextDetId
        ref := c
        raw := raw
        ts := ts
        conf := conf
        image := img
        parent := none
        timeDiff := pyTrunc 0
        grouped := false } := by
  simp only [newDetRow, hlast]

theorem newDetRow_invariant (s : DBState) (c raw : String) (conf ts : ℚ)
    (img : Option String) :
    (newDetRow s c raw conf ts img).grouped = true →
    (newDetRow s c raw conf ts img).parent.isSome ∧
    (newDetRow s c raw conf ts img).image = none := by
  cases hlast : lastUngrouped s c with
  | none => simp [newDetRow, hlast]
  | some last =>
    simp only [newDetRow, hlast]
    split_ifs <;> simp

/-- C6: when the gap to the identity's most recent ungrouped detection
is under the 10-second window, the inserted record is grouped, linked
to that detection by `parentDetectionRef`, and carries no image;
otherwise — gap at or above the window, or no previous ungrouped
detection — it is inserted standalone with no parent and keeps the
supplied image.  Consequently every insertion preserves the invariant
"isGrouped implies parentDetectionRef set and imageRef null". -/
theorem detection_grouping :
    (∀ (s : DBState) (c raw : String) (conf ts : ℚ) (img : Option String)
      (last : DetRow),
      lastUngrouped s c = some last → ts - last.ts < 10 →
      ∃ d ∈ (add_plate_detection s c raw conf ts img).detections,
        d.id = s.nextDetId ∧ d.grouped = true ∧ d.parent = some last.id ∧
        d.image = none) ∧
    (∀ (s : DBState) (c raw : String) (conf ts : ℚ) (img : Option String)
      (last : DetRow),
      lastUngrouped s c = some last → ¬ ts - last.ts < 10 →
      ∃ d ∈ (add_plate_detection s c raw conf ts img).detections,
        d.id = s.nextDetId ∧ d.grouped = false ∧ d.parent = none ∧
        d.image = img) ∧
    (∀ (s : DBState) (c raw : String) (conf ts : ℚ) (img : Option String),
      lastUngrouped s c = none →
      ∃ d ∈ (add_plate_detection s c raw conf ts img).detections,
        d.id = s.nextDetId ∧ d.grouped = false ∧ d.parent = none ∧
        d.image = img) ∧
    (∀ (s : DBState) (c raw : String) (conf ts : ℚ) (img : Option String),
      (∀ d ∈ s.detections, d.grouped = true → d.parent.isSome ∧ d.image = none) →
      (∀ d ∈ (add_plate_detection s c raw conf ts img).detections,
        d.grouped = true → d.parent.isSome ∧ d.image = none)) := by
  refine ⟨?_, ?_, ?_, ?_⟩
  · intro s c raw conf ts img last hlast hlt
    obtain ⟨d, hd, hid, hgr, hpar, himg⟩ := add_plate_detection_inserted s c raw conf ts img
    rw [newDetRow_within_window s c raw conf ts img last hlast hlt] at hid hgr hpar himg
    exact ⟨d, hd, hid, hgr, hpar, himg⟩
  · intro s c raw conf ts img last hlast hge
    obtain ⟨d, hd, hid, hgr, hpar, himg⟩ := add_plate_detection_inserted s c raw conf ts img
    rw [newDetRow_outside_window s c raw conf ts img last hlast hge] at hid hgr hpar himg
    exact ⟨d, hd, hid, hgr, hpar, himg⟩
  · intro s c raw conf ts img hlast
    obtain ⟨d, hd, hid, hgr, hpar, himg⟩ := add_plate_detection_inserted s c raw conf ts img
    rw [newDetRow_no_previous s c raw conf ts img hlast] at hid hgr hpar himg
    exact ⟨d, hd, hid, hgr, hpar, himg⟩
  · intro s c raw conf ts img hinv d hd hgr
    obtain ⟨g, hg⟩ := add_plate_detection_detections s c raw conf ts img
    rw [hg] at hd
    obtain ⟨d0, hd0, rfl⟩ := List.mem_map.mp hd
    have hgr0 : d0.grouped = true := hgr
    rcases List.mem_append.mp hd0 with hmem | hmem
    · exact hinv d0 hmem hgr0
    · rw [List.mem_singleton.mp hmem] at hgr0 ⊢
      exact newDetRow_invariant s c raw conf ts img hgr0

/-- C6 witness: a second detection 5 seconds after an ungrouped one is
inserted as a grouped child with no image; the claim theorem is
applied at that concrete state. -/
theorem detection_grouping_witness :
    ∃ d ∈ (add_plate_detection
        ⟨[], [⟨1, "X1", "X1", 0, 70, none, none, 0, false⟩], [], [], 2⟩
        "X1" "X1" 80 5 (some "img.jpg")).detections,
      d.id = 2 ∧ d.grouped = true ∧ d.parent = some 1 ∧ d.image = none :=
  detection_grouping.1
    ⟨[], [⟨1, "X1", "X1", 0, 70, none, none, 0, false⟩], [], [], 2⟩
    "X1" "X1" 80 5 (some "img.jpg") ⟨1, "X1", "X1", 0, 70, none, none, 0, false⟩
    rfl (by norm_num)

/-! ### Suspicious-flag idempotence -/

/-- Whether the identity is currently flagged
`is_suspiciously_present`. -/
def flagOf (s : DBState) (c : String) : Bool :=
  s.plates.any (fun p => p.text == c && p.suspicious)

/-- The parts of one `process_plate` pass that can touch the
suspicious flag: `_update_database` calls `check_suspicious_presence`
when the dwell duration strictly exceeds the configured minutes
threshold, and `_check_alerts` then calls `mark_as_suspicious` — the
failing no-op — when its truncated-minutes duration exceeds the
threshold and the flag was re-read as clear.  The alert throttle is
consulted only for sending, never for the flag. -/
def process_detection_flag (s : DBState) (c : String) (now thrMinutes : ℚ) :
    DBState :=
  let s1 :=
    match s.plates.find? (fun p => p.text == c) with
    | none => s
    | some row =>
      if thrMinutes * 60 < now - row.firstSeen then
        (check_suspicious_presence s c).1
      else s
  match s1.plates.find? (fun p => p.text == c) with
  | none => s1
  | some row =>
    if thrMinutes < (pyTrunc ((now - row.firstSeen) / 60) : ℚ) ∧
       row.suspicious = false then
      mark_as_suspicious s1 c
    else s1

/-- Run one flag-relevant pass per detection timestamp, counting the
false-to-true transitions of the suspicious flag. -/
def run_detections_flag (s : DBState) (c : String) (thr : ℚ) :
    List ℚ → DBState × Nat
  | [] => (s, 0)
  | t :: rest =>
    let s2 := process_detection_flag s c t thr
    let restRun := run_detections_flag s2 c thr rest
    (restRun.1,
     (if flagOf s2 c && !flagOf s c then 1 else 0) + restRun.2)

theorem process_detection_flag_eq (s : DBState) (c : String) (now thr : ℚ) :
    process_detection_flag s c now thr =
      match s.plates.find? (fun p => p.text == c) with
      | none => s
      | some row =>
        if thr * 60 < now - row.firstSeen then (check_suspicious_presence s c).1
        else s := by
  have hsecond : ∀ s1 : DBState,
      (match s1.plates.find? (fun p => p.text == c) with
       | none => s1
       | some row =>
         if thr < (pyTrunc ((now - row.firstSeen) / 60) : ℚ) ∧
            row.suspicious = false then
           mark_as_suspicious s1 c
         else s1) = s1 := by
    intro s1
    cases s1.plates.find? (fun p => p.text == c) with
    | none => rfl
    | some row =>
      dsimp only
      split_ifs <;> rfl
  rw [process_detection_flag]
  exact hsecond _

theorem process_detection_flag_cases (s : DBState) (c : String) (now thr : ℚ) :
    process_detection_flag s c now thr = s ∨
    process_detection_flag s c now thr = (check_suspicious_presence s c).1 := by
  rw [process_detection_flag_eq]
  cases hf : s.plates.find? (fun p => p.text == c) with
  | none => exact Or.inl rfl
  | some row =>
    dsimp only
    by_cases h : thr * 60 < now - row.firstSeen
    · rw [if_pos h]; exact Or.inr rfl
    · rw [if_neg h]; exact Or.inl rfl

theorem flagOf_after_check (s : DBState) (c : String) (row : PlateRow)
    (hf : s.plates.find? (fun p => p.text == c) = some row) :
    flagOf (check_suspicious_presence s c).1 c = true := by
  have hmem := List.mem_of_find?_eq_some hf
  have htext0 := List.find?_some hf
  have htext : (row.text == c) = true := htext0
  have htext' : row.text = c := by simpa using htext
  rw [flagOf, check_suspicious_presence]
  refine List.any_eq_true.mpr ?_
  refine ⟨(fun p => if p.text = c ∧ p.suspicious = false then
      { p with suspicious := true } else p) row,
    List.mem_map_of_mem _ hmem, ?_⟩
  dsimp only
  by_cases hs : row.suspicious = false
  · rw [if_pos ⟨htext', hs⟩]
    simp [htext']
  · have hs' : row.suspicious = true := by
      cases hsusp : row.suspicious with
      | true => rfl
      | false => exact absurd hsusp hs
    rw [if_neg (fun hc => hs hc.2)]
    simp [htext, hs']

theorem flagOf_check_mono (s : DBState) (c : String) :
    flagOf s c = true → flagOf (check_suspicious_presence s c).1 c = true := by
  intro h
  obtain ⟨p, hp, hpc⟩ := List.any_eq_true.mp h
  have h12 : (p.text == c) = true ∧ p.suspicious = true := by simpa using hpc
  have h1 : (p.text == c) = true := h12.1
  have h2 : p.suspicious = true := h12.2
  rw [flagOf, check_suspicious_presence]
  refine List.any_eq_true.mpr ?_
  refine ⟨(fun q => if q.text = c ∧ q.suspicious = false then
      { q with suspicious := true } else q) p,
    List.mem_map_of_mem _ hp, ?_⟩
  dsimp only
  rw [if_neg (fun hc => by simp [h2] at hc)]
  simp [h1, h2]

theorem flagOf_process_mono (s : DBState) (c : String) (t thr : ℚ) :
    flagOf s c = true → flagOf (process_detection_flag s c t thr) c = true := by
  intro h
  rcases process_detection_flag_cases s c t thr with heq | heq
  · rw [heq]; exact h
  · rw [heq]; exact flagOf_check_mono s c h

theorem map_id_of_eq {α : Type} (f : α → α) :
    ∀ (l : List α), (∀ x ∈ l, f x = x) → l.map f = l := by
  intro l
  induction l with
  | nil => intro _; rfl
  | cons a r ih =>
    intro h
    simp only [List.map_cons, h a (List.mem_cons_self a r),
      ih (fun x hx => h x (List.mem_cons_of_mem a hx))]

theorem process_flag_noop (s : DBState) (c : String) (now thr : ℚ)
    (h : ∀ p ∈ s.plates, p.text = c → p.suspicious = true) :
    process_detection_flag s c now thr = s := by
  rcases process_detection_flag_cases s c now thr with heq | heq
  · exact heq
  · rw [heq, check_suspicious_presence]
    have hmap : s.plates.map (fun p =>
        if p.text = c ∧ p.suspicious = false then { p with suspicious := true }
        else p) = s.plates := by
      refine map_id_of_eq _ s.plates ?_
      intro p hp
      rw [if_neg]
      intro hc
      rw [h p hp hc.1] at hc
      exact Bool.noConfusion hc.2
    rw [hmap]

theorem run_zero_of_flag (s : DBState) (c : String) (thr : ℚ) (ts : List ℚ)
    (h : flagOf s c = true) : (run_detections_flag s c thr ts).2 = 0 := by
  induction ts generalizing s with
  | nil => rfl
  | cons t rest ih =>
    simp only [run_detections_flag]
    rw [h]
    simp [ih (process_detection_flag s c t thr) (flagOf_process_mono s c t thr h)]

theorem run_detections_flag_le_one (c : String) (thr : ℚ) :
    ∀ (ts : List ℚ) (s : DBState), (run_detections_flag s c thr ts).2 ≤ 1 := by
  intro ts
  induction ts with
  | nil => intro s; norm_num [run_detections_flag]
  | cons t rest ih =>
    intro s
    simp only [run_detections_flag]
    cases h2 : flagOf (process_detection_flag s c t thr) c with
    | false => simpa [h2] using ih (process_detection_flag s c t thr)
    | true =>
      rw [run_zero_of_flag (process_detection_flag s c t thr) c thr rest h2]
      cases hf : flagOf s c <;> simp [h2, hf]

/-- C8: whenever a pass runs for an identity whose dwell duration
strictly exceeds the configured minutes threshold, the identity's
suspicious flag is true afterwards (the durable update is guarded by
`is_suspiciously_present = 0`; `mark_as_suspicious` is a failing no-op
because its UPDATE names a column absent from the schema); a pass over
an already fully flagged identity changes nothing; and over any
sequence of passes the flag makes at most one false-to-true
transition.  No part of this consults the alert throttle. -/
theorem suspicious_flag_idempotent :
    (∀ (s : DBState) (c : String) (now thr : ℚ) (row : PlateRow),
      s.plates.find? (fun p => p.text == c) = some row →
      thr * 60 < now - row.firstSeen →
      flagOf (process_detection_flag s c now thr) c = true) ∧
    (∀ (s : DBState) (c : String) (now thr : ℚ),
      (∀ p ∈ s.plates, p.text = c → p.suspicious = true) →
      process_detection_flag s c now thr = s) ∧
    (∀ (s : DBState) (c : String) (thr : ℚ) (ts : List ℚ),
      (run_detections_flag s c thr ts).2 ≤ 1) := by
  refine ⟨?_, ?_, ?_⟩
  · intro s c now thr row hf h
    rw [process_detection_flag_eq, hf]
    dsimp only
    rw [if_pos h]
    exact flagOf_after_check s c row hf
  · intro s c now thr h
    exact process_flag_noop s c now thr h
  · intro s c thr ts
    exact run_detections_flag_le_one c thr ts s

/-- C8 witness: an identity first seen at time 0, processed at time
180 with a 2-minute threshold, ends up flagged suspicious. -/
theorem suspicious_flag_idempotent_witness :
    flagOf (process_detection_flag
      ⟨[⟨"X1", 0, 0, 1, "AZ", 70, false, false, none, 70⟩], [], [], [], 1⟩
      "X1" 180 2) "X1" = true :=
  suspicious_flag_idempotent.1
    ⟨[⟨"X1", 0, 0, 1, "AZ", 70, false, false, none, 70⟩], [], [], [], 1⟩
    "X1" 180 2 ⟨"X1", 0, 0, 1, "AZ", 70, false, false, none, 70⟩ rfl
    (by norm_num)

/-! ### Canonical-rewrite invariant -/

theorem check_update_canonical_noop (s : DBState) (c : String) (v : VarRow)
    (hbest : bestVariantFor s c = some v) (hvc : v.text = c) :
    check_update_canonical s c = s := by
  rw [check_update_canonical, hbest]
  dsimp only
  rw [if_pos hvc]

theorem any_text_eq_false (l : List PlateRow) (n : String)
    (h : ∀ p ∈ l, ¬ p.text = n) : (l.any (fun p => p.text == n)) = false := by
  rw [List.any_eq_false]
  intro p hp
  simp [h p hp]

theorem check_update_canonical_rewrite_eq (s : DBState) (c : String) (v : VarRow)
    (hbest : bestVariantFor s c = some v) (hvc : ¬ v.text = c)
    (hnoc : ∀ p ∈ s.plates, ¬ p.text = v.text) :
    check_update_canonical s c =
      { s with
        plates := s.plates.map (fun p =>
          if p.text = c then { p with text := v.text, highestConf := v.maxConf }
          else p)
        detections := s.detections.map (fun d =>
          { d with ref := renameRef c v.text d.ref })
        variants := s.variants.map (fun w =>
          { w with ref := renameRef c v.text w.ref }) } := by
  rw [check_update_canonical, hbest]
  dsimp only
  rw [if_neg hvc]
  have hcond : (s.plates.any (fun p => p.text == c) &&
      s.plates.any (fun p => p.text == v.text)) = false := by
    rw [any_text_eq_false s.plates v.text hnoc, Bool.and_false]
  rw [hcond]
  rfl

theorem foldl_bestVarStep_map (g : VarRow → VarRow)
    (hg : ∀ w, (g w).maxConf = w.maxConf) :
    ∀ (l : List VarRow) (acc : Option VarRow),
      (l.map g).foldl bestVarStep (acc.map g) =
        (l.foldl bestVarStep acc).map g := by
  intro l
  induction l with
  | nil => intro acc; rfl
  | cons w rest ih =>
    intro acc
    simp only [List.map_cons, List.foldl_cons]
    have hstep : bestVarStep (acc.map g) (g w) = (bestVarStep acc w).map g := by
      cases acc with
      | none => rfl
      | some b =>
        show bestVarStep (some (g b)) (g w) = Option.map g (bestVarStep (some b) w)
        simp only [bestVarStep]
        rw [hg, hg]
        split_ifs <;> rfl
    rw [hstep, ih]

theorem foldl_bestVarStep_map_none (g : VarRow → VarRow)
    (hg : ∀ w, (g w).maxConf = w.maxConf) (l : List VarRow) :
    (l.map g).foldl bestVarStep none = (l.foldl bestVarStep none).map g := by
  have h := foldl_bestVarStep_map g hg l none
  simpa using h

theorem filter_map_rename (c n : String) (l : List VarRow)
    (hl : ∀ w ∈ l, ¬ w.ref = n) :
    ((l.map (fun w => { w with ref := renameRef c n w.ref })).filter
        (fun w => w.ref == n)) =
      (l.filter (fun w => w.ref == c)).map (fun w => { w with ref := n }) := by
  induction l with
  | nil => rfl
  | cons w rest ih =>
    have hw := hl w (List.mem_cons_self w rest)
    have hrest := ih (fun x hx => hl x (List.mem_cons_of_mem w hx))
    simp only [List.map_cons, List.filter_cons]
    by_cases h : w.ref = c
    · have hrc : renameRef c n c = n := by rw [renameRef, if_pos rfl]
      simp [h, hrc, hrest]
    · have hr : renameRef c n w.ref = w.ref := by rw [renameRef, if_neg h]
      simp [hr, h, hw, hrest]

theorem countP_rename_plates (c n : String) (mc : ℚ) (l : List PlateRow)
    (hnoc : ∀ p ∈ l, ¬ p.text = n) :
    (l.map (fun p =>
        if p.text = c then { p with text := n, highestConf := mc } else p)
      ).countP (fun p => p.text == n) =
      l.countP (fun p => p.text == c) := by
  induction l with
  | nil => rfl
  | cons p rest ih =>
    have hp := hnoc p (List.mem_cons_self p rest)
    have hrest := ih (fun x hx => hnoc x (List.mem_cons_of_mem p hx))
    simp only [List.map_cons, List.countP_cons]
    by_cases h : p.text = c
    · simp [h, hrest]
    · simp [h, hp, hrest]

/-- The spec's concrete canonical-rewrite scenario, driven through the
database layer: identity created from "AB123C" at confidence 70, a
first detection recorded under it, then a detection with raw text
"AB128C" at confidence 95 recorded under the same identity. -/
def c1_scenario : DBState :=
  add_plate_detection
    (add_plate_detection
      (create_canonical_plate emptyDB "AB123C" "AZ" 70 0 none)
      "AB123C" "AB123C" 70 0 none)
    "AB123C" "AB128C" 95 20 none

/-- C1: (a) when the strongest variant already is the canonical text,
the canonical check changes nothing (the invariant already holds);
(b) when the strongest variant differs — given the canonical row is
unique and the new text collides with no other plate row or foreign
variant reference — the ONE resulting state of `_check_update_canonical`
has the plate row carrying the new text with `highestConfidence` set to
that variant's confidence, no plate row, detection reference or
variant reference still naming the old text, every detection reference
rewritten, and the best variant under the new name being the promoted
variant itself (so canonicalText again equals the top variant's text);
(c) in the spec's concrete scenario the identity's canonical text
becomes "AB128C" with highest confidence 95 and both prior detection
records reference the new canonical text. -/
theorem canonical_rewrite_invariant :
    (∀ (s : DBState) (c : String) (v : VarRow),
      bestVariantFor s c = some v → v.text = c →
      check_update_canonical s c = s) ∧
    (∀ (s : DBState) (c : String) (v : VarRow),
      bestVariantFor s c = some v → ¬ v.text = c →
      (∀ p ∈ s.plates, ¬ p.text = v.text) →
      (∀ w ∈ s.variants, ¬ w.ref = v.text) →
      s.plates.countP (fun p => p.text == c) = 1 →
      (check_update_canonical s c).plates.countP
          (fun p => p.text == v.text) = 1 ∧
        (∀ p ∈ (check_update_canonical s c).plates,
          p.text = v.text → p.highestConf = v.maxConf) ∧
        (∀ p ∈ (check_update_canonical s c).plates, ¬ p.text = c) ∧
        (∀ d ∈ (check_update_canonical s c).detections, ¬ d.ref = c) ∧
        (∀ w ∈ (check_update_canonical s c).variants, ¬ w.ref = c) ∧
        (check_update_canonical s c).detections =
          s.detections.map (fun d =>
            { d with ref := renameRef c v.text d.ref }) ∧
        bestVariantFor (check_update_canonical s c) v.text =
          some { v with ref := v.text }) ∧
    ((c1_scenario.plates.map (fun p => (p.text, p.highestConf))) =
        [("AB128C", 95)] ∧
      (c1_scenario.detections.map (fun d => d.ref)) = ["AB128C", "AB128C"] ∧
      (c1_scenario.variants.map (fun w => w.ref)) = ["AB128C", "AB128C"] ∧
      ((bestVariantFor c1_scenario "AB128C").map (fun w => (w.text, w.maxConf)))
        = some ("AB128C", 95)) := by
  refine ⟨check_update_canonical_noop, ?_, ?_⟩
  · intro s c v hbest hvc hnoc hvars huniq
    have heq := check_update_canonical_rewrite_eq s c v hbest hvc hnoc
    rw [heq]
    refine ⟨?_, ?_, ?_, ?_, ?_, rfl, ?_⟩
    · show (s.plates.map _).countP _ = 1
      rw [countP_rename_plates c v.text v.maxConf s.plates hnoc]
      exact huniq
    · intro p hp hpt
      obtain ⟨p0, hp0, rfl⟩ := List.mem_map.mp hp
      by_cases h : p0.text = c
      · simp [h]
      · simp only [if_neg h] at hpt ⊢
        exact absurd hpt (hnoc p0 hp0)
    · intro p hp
      obtain ⟨p0, hp0, rfl⟩ := List.mem_map.mp hp
      by_cases h : p0.text = c
      · simp only [if_pos h]
        exact hvc
      · simp only [if_neg h]
        exact h
    · intro d hd
      obtain ⟨d0, hd0, rfl⟩ := List.mem_map.mp hd
      show ¬ renameRef c v.text d0.ref = c
      rw [renameRef]
      split_ifs with h
      · exact hvc
      · exact h
    · intro w hw
      obtain ⟨w0, hw0, rfl⟩ := List.mem_map.mp hw
      show ¬ renameRef c v.text w0.ref = c
      rw [renameRef]
      split_ifs with h
      · exact hvc
      · exact h
    · show bestVariantFor _ v.text = some { v with ref := v.text }
      rw [bestVariantFor]
      dsimp only
      rw [filter_map_rename c v.text s.variants hvars,
        foldl_bestVarStep_map_none (fun w => { w with ref := v.text })
          (fun w => rfl)]
      have hb : (s.variants.filter (fun w => w.ref == c)).foldl bestVarStep none
          = some v := hbest
      rw [hb]
      rfl
  · norm_num +decide [c1_scenario, add_plate_detection, create_canonical_plate,
      emptyDB, newDetRow, lastUngrouped, update_plate_variant,
      updateFirstVariant, check_update_canonical, bestVariantFor, bestVarStep,
      renameRef, pyTrunc]

/-- C1 witness: the rewrite theorem applied to the state just before
the canonical check of the scenario's second detection — "AB128C" at
confidence 95 has just been upserted under identity "AB123C". -/
theorem canonical_rewrite_invariant_witness :
    (check_update_canonical
        ⟨[⟨"AB123C", 0, 0, 1, "AZ", 70, false, false, none, 70⟩],
         [⟨1, "AB123C", "AB123C", 0, 70, none, none, 0, false⟩],
         [⟨"AB123C", "AB123C", 70, 1, 0⟩, ⟨"AB123C", "AB128C", 95, 1, 20⟩],
         [], 2⟩ "AB123C").plates.countP
      (fun p => p.text == "AB128C") = 1 ∧
    (∀ p ∈ (check_update_canonical
        ⟨[⟨"AB123C", 0, 0, 1, "AZ", 70, false, false, none, 70⟩],
         [⟨1, "AB123C", "AB123C", 0, 70, none, none, 0, false⟩],
         [⟨"AB123C", "AB123C", 70, 1, 0⟩, ⟨"AB123C", "AB128C", 95, 1, 20⟩],
         [], 2⟩ "AB123C").plates,
      p.text = "AB128C" → p.highestConf = 95) ∧
    (∀ p ∈ (check_update_canonical
        ⟨[⟨"AB123C", 0, 0, 1, "AZ", 70, false, false, none, 70⟩],
         [⟨1, "AB123C", "AB123C", 0, 70, none, none, 0, false⟩],
         [⟨"AB123C", "AB123C", 70, 1, 0⟩, ⟨"AB123C", "AB128C", 95, 1, 20⟩],
         [], 2⟩ "AB123C").plates, ¬ p.text = "AB123C") ∧
    (∀ d ∈ (check_update_canonical
        ⟨[⟨"AB123C", 0, 0, 1, "AZ", 70, false, false, none, 70⟩],
         [⟨1, "AB123C", "AB123C", 0, 70, none, none, 0, false⟩],
         [⟨"AB123C", "AB123C", 70, 1, 0⟩, ⟨"AB123C", "AB128C", 95, 1, 20⟩],
         [], 2⟩ "AB123C").detections, ¬ d.ref = "AB123C") ∧
    (∀ w ∈ (check_update_canonical
        ⟨[⟨"AB123C", 0, 0, 1, "AZ", 70, false, false, none, 70⟩],
         [⟨1, "AB123C", "AB123C", 0, 70, none, none, 0, false⟩],
         [⟨"AB123C", "AB123C", 70, 1, 0⟩, ⟨"AB123C", "AB128C", 95, 1, 20⟩],
         [], 2⟩ "AB123C").variants, ¬ w.ref = "AB123C") ∧
    (check_update_canonical
        ⟨[⟨"AB123C", 0, 0, 1, "AZ", 70, false, false, none, 70⟩],
         [⟨1, "AB123C", "AB123C", 0, 70, none, none, 0, false⟩],
         [⟨"AB123C", "AB123C", 70, 1, 0⟩, ⟨"AB123C", "AB128C", 95, 1, 20⟩],
         [], 2⟩ "AB123C").detections =
      ([⟨1, "AB123C", "AB123C", 0, 70, none, none, 0, false⟩] : List DetRow).map
        (fun d => { d with ref := renameRef "AB123C" "AB128C" d.ref }) ∧
    bestVariantFor (check_update_canonical
        ⟨[⟨"AB123C", 0, 0, 1, "AZ", 70, false, false, none, 70⟩],
         [⟨1, "AB123C", "AB123C", 0, 70, none, none, 0, false⟩],
         [⟨"AB123C", "AB123C", 70, 1, 0⟩, ⟨"AB123C", "AB128C", 95, 1, 20⟩],
         [], 2⟩ "AB123C") "AB128C" =
      some ⟨"AB128C", "AB128C", 95, 1, 20⟩ :=
  canonical_rewrite_invariant.2.1
    ⟨[⟨"AB123C", 0, 0, 1, "AZ", 70, false, false, none, 70⟩],
     [⟨1, "AB123C", "AB123C", 0, 70, none, none, 0, false⟩],
     [⟨"AB123C", "AB123C", 70, 1, 0⟩, ⟨"AB123C", "AB128C", 95, 1, 20⟩],
     [], 2⟩ "AB123C" ⟨"AB123C", "AB128C", 95, 1, 20⟩
    (by decide) (by decide) (by decide) (by decide) (by decide)

end LPR
